import Mathlib

/-!
Shallow embedding of the cache abstraction layer of the across-api PoC
repository: the in-memory provider (src/shared/cache/memory.ts), the
Upstash remote provider (src/shared/cache/upstash.ts), and the factory
(createCacheProvider).

Modelling conventions:
  * Timestamps are milliseconds since epoch, modelled as Int (JS numbers
    are signed; a negative ttlSeconds can produce a negative or zero
    expiresAt).
  * The internal JS Map of the memory provider is modelled as a function
    String to Option entry; Map.get / Map.set / Map.delete / Map.clear
    become pointwise lookup / update / removal / constant none.  Insertion
    order is irrelevant to every operation modelled here.
  * JS truthiness is modelled faithfully: the source guards
    "entry.expiresAt && Date.now() > entry.expiresAt" and
    "ttlSeconds ? ... : undefined" treat the number 0 as absent, so the
    embedding tests both presence and being nonzero.
  * async methods contain no internal await in the memory provider, so a
    call runs atomically; methods are plain state-passing functions.
  * The remote Redis backend is external I/O; each method of the Upstash
    provider takes the outcome of its backend call (an Except value) as an
    explicit argument, and the command it issues is reified so that the
    TTL selection logic of the source can be stated.
-/

/-- Entry stored by the in-memory provider: a value plus an optional
absolute expiry timestamp in milliseconds (interface CacheEntry in
memory.ts). -/
structure CacheEntry (α : Type) where
  value : α
  expiresAt : Option Int
deriving DecidableEq

/-- The internal state of the in-memory provider: the JS Map from keys to
entries, modelled pointwise. -/
abbrev MemCache (α : Type) := String → Option (CacheEntry α)

/-- The empty store built by the MemoryCacheProvider constructor. -/
def emptyMem (α : Type) : MemCache α := fun _ => none

/-- The JS guard "entry.expiresAt && Date.now() > entry.expiresAt" from
memory.ts get and exists: true when the timestamp is present, nonzero
(0 is falsy in JS) and strictly in the past. -/
def jsExpiryCheck (expiresAt : Option Int) (now : Int) : Bool :=
  match expiresAt with
  | none => false
  | some e => decide (e ≠ 0) && decide (now > e)

/-- The expression "ttlSeconds ? Date.now() + ttlSeconds * 1000 : undefined"
from memory.ts set: a present, nonzero ttl yields an absolute expiry, a
missing or zero (falsy) ttl yields none. -/
def setExpiresAt (now : Int) (ttlSeconds : Option Int) : Option Int :=
  match ttlSeconds with
  | none => none
  | some t => if t ≠ 0 then some (now + t * 1000) else none

/-- MemoryCacheProvider.delete: Map.delete on the internal map. -/
def MemoryCacheProvider.delete {α : Type} (c : MemCache α) (key : String) : MemCache α :=
  fun k => if k = key then none else c k

/-- MemoryCacheProvider.get: look the key up; absent gives null; an entry
whose expiry guard fires is deleted from the map and null is returned;
otherwise the stored value is returned.  Returns the result together with
the possibly mutated store. -/
def MemoryCacheProvider.get {α : Type} (c : MemCache α) (now : Int) (key : String) :
    Option α × MemCache α :=
  match c key with
  | none => (none, c)
  | some entry =>
    if jsExpiryCheck entry.expiresAt now then
      (none, MemoryCacheProvider.delete c key)
    else
      (some entry.value, c)

/-- MemoryCacheProvider.set: build the entry with the optional absolute
expiry and store it unconditionally (Map.set, last write wins). -/
def MemoryCacheProvider.set {α : Type} (c : MemCache α) (now : Int) (key : String)
    (value : α) (ttlSeconds : Option Int) : MemCache α :=
  fun k => if k = key then some ⟨value, setExpiresAt now ttlSeconds⟩ else c k

/-- MemoryCacheProvider.exists (renamed, exists is a Lean keyword): same
expiry guard as get, returning a boolean instead of the value. -/
def MemoryCacheProvider.existsKey {α : Type} (c : MemCache α) (now : Int) (key : String) :
    Bool × MemCache α :=
  match c key with
  | none => (false, c)
  | some entry =>
    if jsExpiryCheck entry.expiresAt now then
      (false, MemoryCacheProvider.delete c key)
    else
      (true, c)

/-- MemoryCacheProvider.flush: Map.clear. -/
def MemoryCacheProvider.flush {α : Type} (_ : MemCache α) : MemCache α :=
  fun _ => none

/-- MemoryCacheProvider.mget: keys.map over this.get.  Each get runs
synchronously in input order (the async bodies contain no await), so the
store mutations thread left to right. -/
def MemoryCacheProvider.mget {α : Type} : MemCache α → Int → List String →
    List (Option α) × MemCache α
  | c, _, [] => ([], c)
  | c, now, key :: rest =>
    let r := MemoryCacheProvider.get c now key
    let rs := MemoryCacheProvider.mget r.2 now rest
    (r.1 :: rs.1, rs.2)

/-- One element of the entries argument of mset. -/
structure MsetEntry (α : Type) where
  key : String
  value : α
  ttlSeconds : Option Int
deriving DecidableEq

/-- MemoryCacheProvider.mset: a sequential for loop of awaited set calls. -/
def MemoryCacheProvider.mset {α : Type} : MemCache α → Int → List (MsetEntry α) → MemCache α
  | c, _, [] => c
  | c, now, en :: rest =>
    MemoryCacheProvider.mset (MemoryCacheProvider.set c now en.key en.value en.ttlSeconds) now rest

/-- Credentials of the upstash field of CacheConfig (interface.ts).  The
TS fields are required strings, but the JS guard in the constructor treats
the empty string as missing (falsy). -/
structure UpstashCreds where
  url : String
  token : String
deriving DecidableEq

/-- Credentials of the redis field of CacheConfig (interface.ts). -/
structure RedisCreds where
  host : String
  port : Int
  password : Option String
deriving DecidableEq

/-- The provider tag union of CacheConfig: "upstash" | "memory" | "redis". -/
inductive ProviderTag where
  | upstash
  | memory
  | redis
deriving DecidableEq

/-- String interpolation of the tag, as in the factory error message. -/
def providerTagStr : ProviderTag → String
  | .upstash => "upstash"
  | .memory => "memory"
  | .redis => "redis"

/-- CacheConfig from interface.ts. -/
structure CacheConfig where
  provider : ProviderTag
  upstash : Option UpstashCreds
  redis : Option RedisCreds
  defaultTTL : Option Int
deriving DecidableEq

/-- State kept by UpstashCacheProvider after construction: the client
credentials and the configured default TTL. -/
structure UpstashCacheProvider where
  url : String
  token : String
  defaultTTL : Option Int
deriving DecidableEq

/-- UpstashCacheProvider constructor: the guard
"!config.upstash?.url || !config.upstash?.token" throws when the upstash
object is missing or either field is falsy (empty); otherwise the client
is built and config.defaultTTL is kept. -/
def UpstashCacheProvider.construct (config : CacheConfig) :
    Except String UpstashCacheProvider :=
  match config.upstash with
  | none =>
    Except.error "Upstash configuration required: UPSTASH_REDIS_REST_URL and UPSTASH_REDIS_REST_TOKEN"
  | some creds =>
    if creds.url = "" ∨ creds.token = "" then
      Except.error "Upstash configuration required: UPSTASH_REDIS_REST_URL and UPSTASH_REDIS_REST_TOKEN"
    else
      Except.ok ⟨creds.url, creds.token, config.defaultTTL⟩

/-- The write command a call of UpstashCacheProvider.set issues to the
Redis client: SETEX when an effective ttl is truthy, plain SET otherwise. -/
inductive RedisWriteCmd (α : Type) where
  | setex (key : String) (ttl : Int) (value : α)
  | set (key : String) (value : α)
deriving DecidableEq

/-- TTL selection and branch of UpstashCacheProvider.set:
"const ttl = ttlSeconds ?? this.defaultTTL" (nullish coalescing: an
explicit 0 does not fall back) followed by "if (ttl)" (truthiness: a ttl
of 0 takes the plain SET branch). -/
def UpstashCacheProvider.setCommand {α : Type} (p : UpstashCacheProvider) (key : String)
    (value : α) (ttlSeconds : Option Int) : RedisWriteCmd α :=
  let ttl : Option Int :=
    match ttlSeconds with
    | some t => some t
    | none => p.defaultTTL
  match ttl with
  | some t => if t ≠ 0 then .setex key t value else .set key value
  | none => .set key value

/-- UpstashCacheProvider.get: await redis.get inside try/catch; a backend
error is logged and mapped to null (fail-soft read), a success is returned
as is (redis.get itself yields null for a missing key). -/
def UpstashCacheProvider.get {α ε : Type} (backendResult : Except ε (Option α)) : Option α :=
  match backendResult with
  | .ok v => v
  | .error _ => none

/-- UpstashCacheProvider.set: issue the selected write command; a backend
error is logged and rethrown (fail-loud write). -/
def UpstashCacheProvider.set {α ε : Type} (p : UpstashCacheProvider) (key : String)
    (value : α) (ttlSeconds : Option Int) (backend : RedisWriteCmd α → Except ε Unit) :
    Except ε Unit :=
  match backend (UpstashCacheProvider.setCommand p key value ttlSeconds) with
  | .ok _ => .ok ()
  | .error e => .error e

/-- UpstashCacheProvider.delete: await redis.del (returning a count, which
is discarded); a backend error is logged and rethrown. -/
def UpstashCacheProvider.delete {ε : Type} (backendResult : Except ε Int) : Except ε Unit :=
  match backendResult with
  | .ok _ => .ok ()
  | .error e => .error e

/-- UpstashCacheProvider.exists: "result === 1" on success, false on a
backend error (fail-soft). -/
def UpstashCacheProvider.existsKey {ε : Type} (backendResult : Except ε Int) : Bool :=
  match backendResult with
  | .ok r => decide (r = 1)
  | .error _ => false

/-- UpstashCacheProvider.flush: await redis.flushdb; errors rethrown. -/
def UpstashCacheProvider.flush {ε : Type} (backendResult : Except ε Unit) : Except ε Unit :=
  match backendResult with
  | .ok _ => .ok ()
  | .error e => .error e

/-- UpstashCacheProvider.mget: an empty key list short-circuits to [];
otherwise one redis.mget call, whose failure degrades to one null per
requested key. -/
def UpstashCacheProvider.mget {α ε : Type} (keys : List String)
    (backendResult : Except ε (List (Option α))) : List (Option α) :=
  if keys.length = 0 then []
  else
    match backendResult with
    | .ok values => values
    | .error _ => keys.map (fun _ => none)

/-- The per-entry set calls UpstashCacheProvider.mset makes:
"entries.map(({key, value, ttlSeconds}) => this.set(key, value, ttlSeconds))".
Array.map is eager, so every entry is attempted. -/
def UpstashCacheProvider.msetAttempts {α ε : Type} (p : UpstashCacheProvider)
    (entries : List (MsetEntry α)) (backend : RedisWriteCmd α → Except ε Unit) :
    List (Except ε Unit) :=
  entries.map (fun en => UpstashCacheProvider.set p en.key en.value en.ttlSeconds backend)

/-- Promise.all over unit promises: resolves when all resolve, rejects with
the first rejection otherwise. -/
def promiseAllUnit {ε : Type} : List (Except ε Unit) → Except ε Unit
  | [] => .ok ()
  | .error e :: _ => .error e
  | .ok _ :: rest => promiseAllUnit rest

/-- UpstashCacheProvider.mset: Promise.all over the decomposed per-entry
set calls (Upstash has no batch primitive with per-entry TTLs); a failure
is logged and rethrown. -/
def UpstashCacheProvider.mset {α ε : Type} (p : UpstashCacheProvider)
    (entries : List (MsetEntry α)) (backend : RedisWriteCmd α → Except ε Unit) :
    Except ε Unit :=
  match promiseAllUnit (UpstashCacheProvider.msetAttempts p entries backend) with
  | .ok _ => .ok ()
  | .error e => .error e

/-- The runtime value returned by the factory: one of the two constructible
providers. -/
inductive CacheProvider (α : Type) where
  | memory (state : MemCache α)
  | upstash (p : UpstashCacheProvider)

/-- createCacheProvider from the cache module factory: switch on
config.provider; "upstash" constructs an UpstashCacheProvider from the
whole config (propagating its constructor failure), "memory" constructs a
MemoryCacheProvider with a fresh empty map (config.defaultTTL is
discarded), and every other tag hits the default branch and throws. -/
def createCacheProvider {α : Type} (config : CacheConfig) :
    Except String (CacheProvider α) :=
  match config.provider with
  | .upstash =>
    match UpstashCacheProvider.construct config with
    | .ok p => .ok (.upstash p)
    | .error e => .error e
  | .memory => .ok (.memory (emptyMem α))
  | .redis =>
    .error ("Unsupported cache provider: " ++ providerTagStr config.provider)

/-- One mutating call on the in-memory provider, with the Date.now()
observed by a set call recorded in the operation. -/
inductive CacheOp (α : Type) where
  | set (now : Int) (key : String) (value : α) (ttlSeconds : Option Int)
  | delete (key : String)
  | flush
deriving DecidableEq

/-- Replay a list of mutating calls against a store. -/
def runOps {α : Type} : MemCache α → List (CacheOp α) → MemCache α
  | c, [] => c
  | c, .set now k v ttl :: rest => runOps (MemoryCacheProvider.set c now k v ttl) rest
  | c, .delete k :: rest => runOps (MemoryCacheProvider.delete c k) rest
  | c, .flush :: rest => runOps (MemoryCacheProvider.flush c) rest

/-- Whether an operation overwrites the state of the given key. -/
def writesKey {α : Type} : CacheOp α → String → Bool
  | .set _ k _ _, key => decide (k = key)
  | .delete k, key => decide (k = key)
  | .flush, _ => true

/-- The last operation in the trace that writes the given key, if any. -/
def lastWrite {α : Type} : List (CacheOp α) → String → Option (CacheOp α)
  | [], _ => none
  | op :: rest, key =>
    match lastWrite rest key with
    | some w => some w
    | none => if writesKey op key then some op else none

/-- Liveness of a key after a trace, stated from the words of the spec: a
prior set occurred whose TTL has not expired (the set algorithm of the
spec gives an entry with ttl the absolute expiry time set-time plus
ttl seconds, or no expiry when the ttl argument is absent), and no delete
or flush hit the key afterwards. -/
def specLive {α : Type} (ops : List (CacheOp α)) (key : String) (now : Int) : Bool :=
  match lastWrite ops key with
  | some (.set t _ _ (some s)) => decide (now ≤ t + s * 1000)
  | some (.set _ _ _ none) => true
  | _ => false

/-- Well-formed operation: set calls carry a nonnegative clock reading and
a positive TTL when one is given. -/
def wfOp {α : Type} : CacheOp α → Bool
  | .set t _ _ ttl =>
    decide (0 ≤ t) && (match ttl with | none => true | some s => decide (0 < s))
  | _ => true

/-- Well-formed trace: every operation is well formed. -/
def wfOps {α : Type} (ops : List (CacheOp α)) : Bool := ops.all wfOp

theorem lastWrite_mem {α : Type} (ops : List (CacheOp α)) (key : String) (w : CacheOp α)
    (h : lastWrite ops key = some w) : w ∈ ops := by
  induction ops with
  | nil => simp [lastWrite] at h
  | cons op rest ih =>
    rw [lastWrite] at h
    cases hw : lastWrite rest key with
    | some w2 =>
      rw [hw] at h
      obtain rfl := Option.some.inj h
      exact List.mem_cons_of_mem _ (ih hw)
    | none =>
      rw [hw] at h
      by_cases hk : writesKey op key
      · rw [if_pos hk] at h
        obtain rfl := Option.some.inj h
        exact List.mem_cons_self _ _
      · rw [if_neg hk] at h
        exact absurd h (by simp)

theorem runOps_apply {α : Type} (ops : List (CacheOp α)) (c : MemCache α) (key : String) :
    runOps c ops key =
      match lastWrite ops key with
      | some (.set t _ v ttl) => some ⟨v, setExpiresAt t ttl⟩
      | some (.delete _) => none
      | some .flush => none
      | none => c key := by
  induction ops generalizing c with
  | nil => rfl
  | cons op rest ih =>
    cases op with
    | set t k v ttl =>
      rw [runOps, ih]
      cases hw : lastWrite rest key with
      | some w =>
        simp only [lastWrite, hw]
        cases w <;> rfl
      | none =>
        simp only [lastWrite, hw, writesKey]
        by_cases hk : k = key
        · subst hk
          simp [MemoryCacheProvider.set]
        · have hk2 : ¬ key = k := fun h => hk h.symm
          simp [MemoryCacheProvider.set, hk, hk2]
    | delete k =>
      rw [runOps, ih]
      cases hw : lastWrite rest key with
      | some w =>
        simp only [lastWrite, hw]
        cases w <;> rfl
      | none =>
        simp only [lastWrite, hw, writesKey]
        by_cases hk : k = key
        · subst hk
          simp [MemoryCacheProvider.delete]
        · have hk2 : ¬ key = k := fun h => hk h.symm
          simp [MemoryCacheProvider.delete, hk, hk2]
    | flush =>
      rw [runOps, ih]
      cases hw : lastWrite rest key with
      | some w =>
        simp only [lastWrite, hw]
        cases w <;> rfl
      | none => simp [lastWrite, hw, writesKey, MemoryCacheProvider.flush]

theorem get_snd_get_fst {α : Type} (c : MemCache α) (now : Int) (k1 k2 : String) :
    (MemoryCacheProvider.get (MemoryCacheProvider.get c now k1).2 now k2).1 =
      (MemoryCacheProvider.get c now k2).1 := by
  rcases h1 : c k1 with _ | entry
  · have h2 : (MemoryCacheProvider.get c now k1).2 = c := by
      simp [MemoryCacheProvider.get, h1]
    rw [h2]
  · by_cases hx : jsExpiryCheck entry.expiresAt now
    · have h2 : (MemoryCacheProvider.get c now k1).2 = MemoryCacheProvider.delete c k1 := by
        simp [MemoryCacheProvider.get, h1, hx]
      rw [h2]
      by_cases hk : k2 = k1
      · subst hk
        simp [MemoryCacheProvider.get, MemoryCacheProvider.delete, h1, hx]
      · have hsame : MemoryCacheProvider.delete c k1 k2 = c k2 := by
          simp [MemoryCacheProvider.delete, hk]
        rcases h3 : c k2 with _ | e2
        · simp [MemoryCacheProvider.get, hsame, h3]
        · simp only [MemoryCacheProvider.get, hsame, h3]
          by_cases hx2 : jsExpiryCheck e2.expiresAt now <;> simp [hx2]
    · have h2 : (MemoryCacheProvider.get c now k1).2 = c := by
        simp [MemoryCacheProvider.get, h1, hx]
      rw [h2]

theorem mget_eq_map {α : Type} (c : MemCache α) (now : Int) (keys : List String) :
    (MemoryCacheProvider.mget c now keys).1 =
      keys.map (fun k => (MemoryCacheProvider.get c now k).1) := by
  induction keys generalizing c with
  | nil => rfl
  | cons k rest ih =>
    simp only [MemoryCacheProvider.mget, List.map_cons]
    rw [ih]
    simp only [get_snd_get_fst]

theorem promiseAllUnit_ok_iff {ε : Type} (rs : List (Except ε Unit)) :
    promiseAllUnit rs = Except.ok () ↔ ∀ r ∈ rs, r = Except.ok () := by
  induction rs with
  | nil => simp [promiseAllUnit]
  | cons r rest ih =>
    cases r with
    | ok u =>
      cases u
      simp [promiseAllUnit, ih, List.forall_mem_cons]
    | error e => simp [promiseAllUnit, List.forall_mem_cons]

theorem jsExpiryCheck_true_iff (e now : Int) :
    jsExpiryCheck (some e) now = true ↔ (e ≠ 0 ∧ now > e) := by
  simp [jsExpiryCheck]

theorem jsExpiryCheck_false_iff (e now : Int) :
    jsExpiryCheck (some e) now = false ↔ (e = 0 ∨ now ≤ e) := by
  rw [← Bool.not_eq_true, jsExpiryCheck_true_iff]
  constructor
  · intro h
    by_cases h0 : e = 0
    · exact Or.inl h0
    · exact Or.inr (by omega)
  · intro h hc
    rcases h with h0 | hle
    · exact hc.1 h0
    · omega

theorem get_of_entry {α : Type} (c : MemCache α) (now : Int) (key : String) (v : α)
    (ea : Option Int) (h : c key = some ⟨v, ea⟩) :
    MemoryCacheProvider.get c now key =
      if jsExpiryCheck ea now then (none, MemoryCacheProvider.delete c key) else (some v, c) := by
  unfold MemoryCacheProvider.get
  rw [h]

/-- C5: for all keys k and values v, on the in-memory provider, set(k, v)
followed immediately by get(k) returns the stored value, regardless of the
prior contents of the store. -/
theorem memory_set_get_roundtrip {α : Type} (c : MemCache α) (now : Int) (k : String)
    (v : α) :
    (MemoryCacheProvider.get (MemoryCacheProvider.set c now k v none) now k).1 = some v := by
  have h : (MemoryCacheProvider.set c now k v none) k = some ⟨v, none⟩ := by
    simp [MemoryCacheProvider.set, setExpiresAt]
  rw [get_of_entry _ now k v none h]
  simp [jsExpiryCheck]

/-- C7: mget returns a sequence of the same length and order as the input
keys, each position resolving its own key independently (the in-memory
provider maps get over the keys; duplicates are not deduplicated), and a
failure of the whole remote batch degrades to one null per requested key
rather than an error. -/
theorem mget_order_length_failsoft {α ε : Type} (c : MemCache α) (now : Int)
    (keys : List String) (e : ε) :
    ((MemoryCacheProvider.mget c now keys).1 =
        keys.map (fun k => (MemoryCacheProvider.get c now k).1)) ∧
    ((MemoryCacheProvider.mget c now keys).1.length = keys.length) ∧
    (UpstashCacheProvider.mget keys (Except.error e : Except ε (List (Option α))) =
        keys.map (fun _ => none)) ∧
    (∀ vs : List (Option α), vs.length = keys.length →
        UpstashCacheProvider.mget keys (Except.ok vs : Except ε (List (Option α))) = vs) := by
  refine ⟨mget_eq_map c now keys, ?_, ?_, ?_⟩
  · rw [mget_eq_map]
    simp
  · unfold UpstashCacheProvider.mget
    by_cases hk : keys.length = 0
    · obtain rfl := List.length_eq_zero.mp hk
      simp
    · simp [hk]
  · intro vs hvs
    unfold UpstashCacheProvider.mget
    by_cases hk : keys.length = 0
    · have hv : vs = [] := List.length_eq_zero.mp (by omega)
      subst hv
      simp [hk]
    · simp [hk]

/-- Witness for C7 at a concrete instance with a duplicate-free success
batch of length two. -/
theorem mget_order_length_failsoft_witness :
    UpstashCacheProvider.mget ["a", "b"]
      (Except.ok [some (1:Int), none] : Except String (List (Option Int))) = [some 1, none] :=
  (mget_order_length_failsoft (emptyMem Int) 0 ["a", "b"] "err").2.2.2
    [some 1, none] (by decide)

/-- C3: reads fail soft and writes fail loud on the remote provider: get
maps any backend error to null and passes a success through (so a missing
key is null, not an exception), while set, delete, flush and mset all
propagate a backend error to the caller. -/
theorem read_failsoft_write_failloud {α ε : Type} (e : ε) (v : Option α)
    (p : UpstashCacheProvider) (k : String) (val : α) (ttl : Option Int)
    (en : MsetEntry α) (rest : List (MsetEntry α)) :
    (UpstashCacheProvider.get (Except.error e : Except ε (Option α)) = none) ∧
    (UpstashCacheProvider.get (Except.ok v : Except ε (Option α)) = v) ∧
    (UpstashCacheProvider.set p k val ttl (fun _ => Except.error e) = Except.error e) ∧
    (UpstashCacheProvider.delete (Except.error e : Except ε Int) = Except.error e) ∧
    (UpstashCacheProvider.flush (Except.error e : Except ε Unit) = Except.error e) ∧
    (UpstashCacheProvider.mset p (en :: rest) (fun _ => Except.error e) = Except.error e) :=
  ⟨rfl, rfl, rfl, rfl, rfl, rfl⟩

/-- C2: the remote mset decomposes into one set attempt per entry (the
eager map attempts every entry), and the aggregate result succeeds exactly
when every per-entry attempt succeeded, so a failure of one entry is
surfaced rather than silently dropped. -/
theorem mset_attempts_all_aggregate {α ε : Type} (p : UpstashCacheProvider)
    (entries : List (MsetEntry α)) (backend : RedisWriteCmd α → Except ε Unit) :
    ((UpstashCacheProvider.msetAttempts p entries backend).length = entries.length) ∧
    (UpstashCacheProvider.mset p entries backend = Except.ok () ↔
      ∀ en ∈ entries,
        UpstashCacheProvider.set p en.key en.value en.ttlSeconds backend = Except.ok ()) := by
  constructor
  · simp [UpstashCacheProvider.msetAttempts]
  · have hiff : UpstashCacheProvider.mset p entries backend = Except.ok () ↔
        promiseAllUnit (UpstashCacheProvider.msetAttempts p entries backend) =
          Except.ok () := by
      cases h2 : promiseAllUnit (UpstashCacheProvider.msetAttempts p entries backend) with
      | error e2 => simp [UpstashCacheProvider.mset, h2]
      | ok u =>
        cases u
        simp [UpstashCacheProvider.mset, h2]
    rw [hiff, promiseAllUnit_ok_iff]
    unfold UpstashCacheProvider.msetAttempts
    constructor
    · intro h en hen
      exact h _ (List.mem_map_of_mem _ hen)
    · intro h r hr
      obtain ⟨en, hen, rfl⟩ := List.mem_map.mp hr
      exact h en hen

/-- Witness for C2 at a concrete two-entry batch against a succeeding
backend. -/
theorem mset_attempts_all_aggregate_witness :
    UpstashCacheProvider.mset ⟨"u", "t", some 300⟩
      [⟨"a", (1:Int), none⟩, ⟨"b", 2, some 10⟩]
      (fun _ => (Except.ok () : Except String Unit)) = Except.ok () :=
  ((mset_attempts_all_aggregate ⟨"u", "t", some 300⟩
      [⟨"a", (1:Int), none⟩, ⟨"b", 2, some 10⟩]
      (fun _ => (Except.ok () : Except String Unit))).2).mpr
    (by
      intro en hen
      rcases List.mem_cons.mp hen with rfl | hen
      · rfl
      · rcases List.mem_cons.mp hen with rfl | hen
        · rfl
        · exact absurd hen (List.not_mem_nil _))

/-- C8: misconfiguration is fatal at construction time: an unknown provider
tag makes createCacheProvider throw immediately, and constructing the
Upstash provider with a missing upstash config object or a missing (falsy)
url or token throws in the constructor, also through the factory. -/
theorem misconfig_fatal_at_construction {α : Type} (config : CacheConfig)
    (creds : UpstashCreds) :
    (config.provider = ProviderTag.redis →
      @createCacheProvider α config = Except.error "Unsupported cache provider: redis") ∧
    (config.upstash = none →
      UpstashCacheProvider.construct config =
        Except.error "Upstash configuration required: UPSTASH_REDIS_REST_URL and UPSTASH_REDIS_REST_TOKEN") ∧
    (config.upstash = some creds → (creds.url = "" ∨ creds.token = "") →
      UpstashCacheProvider.construct config =
        Except.error "Upstash configuration required: UPSTASH_REDIS_REST_URL and UPSTASH_REDIS_REST_TOKEN") ∧
    (config.provider = ProviderTag.upstash → config.upstash = none →
      @createCacheProvider α config =
        Except.error "Upstash configuration required: UPSTASH_REDIS_REST_URL and UPSTASH_REDIS_REST_TOKEN") := by
  refine ⟨?_, ?_, ?_, ?_⟩
  · intro h
    unfold createCacheProvider
    rw [h]
    rfl
  · intro h
    unfold UpstashCacheProvider.construct
    rw [h]
  · intro h h2
    unfold UpstashCacheProvider.construct
    rw [h]
    simp only [if_pos h2]
  · intro h h2
    unfold createCacheProvider UpstashCacheProvider.construct
    rw [h, h2]

/-- Witness for C8: the factory with the upstash tag and no credentials
object fails at construction with the configuration error. -/
theorem misconfig_fatal_at_construction_witness :
    @createCacheProvider Int ⟨ProviderTag.upstash, none, none, some 60⟩ =
      Except.error "Upstash configuration required: UPSTASH_REDIS_REST_URL and UPSTASH_REDIS_REST_TOKEN" :=
  (misconfig_fatal_at_construction ⟨ProviderTag.upstash, none, none, some 60⟩
      ⟨"u", "t"⟩).2.2.2 rfl rfl

/-- C10: the configuration type admits the redis tag, but the factory has
no branch for it: every config carrying the redis tag, even with complete
redis credentials, falls to the default case and throws the unsupported
provider error at construction. -/
theorem redis_tag_unsupported {α : Type} (config : CacheConfig)
    (h : config.provider = ProviderTag.redis) :
    @createCacheProvider α config = Except.error "Unsupported cache provider: redis" := by
  unfold createCacheProvider
  rw [h]
  rfl

/-- Witness for C10: a redis-tagged config with full redis credentials
still fails construction. -/
theorem redis_tag_unsupported_witness :
    @createCacheProvider Int
      ⟨ProviderTag.redis, none, some ⟨"localhost", 6379, some "pw"⟩, some 300⟩ =
      Except.error "Unsupported cache provider: redis" :=
  redis_tag_unsupported ⟨ProviderTag.redis, none, some ⟨"localhost", 6379, some "pw"⟩, some 300⟩ rfl

/-- C1 counterexample: the factory discards config.defaultTTL when it
builds the in-memory provider, and the in-memory set with the ttl argument
omitted stores an entry with no expiry at all, not one computed from the
configured default of 300 seconds. -/
theorem memory_default_ttl_cex :
    (@createCacheProvider Int ⟨ProviderTag.memory, none, none, some 300⟩ =
        Except.ok (CacheProvider.memory (emptyMem Int))) ∧
    ((MemoryCacheProvider.set (emptyMem Int) 1700000000000 "k" (42:Int) none) "k" =
        some ⟨42, none⟩) ∧
    ¬ ((MemoryCacheProvider.set (emptyMem Int) 1700000000000 "k" (42:Int) none) "k" =
        some ⟨42, some (1700000000000 + 300 * 1000)⟩) :=
  ⟨rfl, by decide, by decide⟩

/-- C1 amended: with the ttl argument omitted, the Upstash provider falls
back to its configured nonzero default (issuing SETEX with it) and never
expires the entry when no default is configured (plain SET); the in-memory
provider keeps no default at all (the factory drops config.defaultTTL), so
an omitted ttl there always stores a never-expiring entry. -/
theorem ttl_fallback_amended {α : Type} (p : UpstashCacheProvider) (key : String) (v : α)
    (d : Int) (c : MemCache α) (now : Int) (config : CacheConfig) :
    (p.defaultTTL = some d → d ≠ 0 →
      UpstashCacheProvider.setCommand p key v none = RedisWriteCmd.setex key d v) ∧
    (p.defaultTTL = none →
      UpstashCacheProvider.setCommand p key v none = RedisWriteCmd.set key v) ∧
    ((MemoryCacheProvider.set c now key v none) key = some ⟨v, none⟩) ∧
    (config.provider = ProviderTag.memory →
      @createCacheProvider α config = Except.ok (CacheProvider.memory (emptyMem α))) := by
  refine ⟨?_, ?_, ?_, ?_⟩
  · intro h hd
    unfold UpstashCacheProvider.setCommand
    simp [h, hd]
  · intro h
    unfold UpstashCacheProvider.setCommand
    simp [h]
  · simp [MemoryCacheProvider.set, setExpiresAt]
  · intro h
    unfold createCacheProvider
    rw [h]

/-- Witness for C1 at a provider with a configured default of 300
seconds. -/
theorem ttl_fallback_amended_witness :
    UpstashCacheProvider.setCommand ⟨"u", "t", some 300⟩ "k" (5:Int) none =
      RedisWriteCmd.setex "k" 300 5 :=
  (ttl_fallback_amended ⟨"u", "t", some 300⟩ "k" (5:Int) 300 (emptyMem Int) 0
      ⟨ProviderTag.memory, none, none, none⟩).1 rfl (by decide)

/-- C4 counterexample: a set at time 1000 with ttl -1 stores the expiry
timestamp 0; at time 2000 the stored expiry has passed, yet get returns
the value and leaves the entry in the map, because the JS truthiness guard
treats the timestamp 0 as no expiry. -/
theorem get_zero_expiry_cex :
    ((MemoryCacheProvider.set (emptyMem Int) 1000 "k" 7 (some (-1))) "k" =
        some ⟨7, some 0⟩) ∧
    ((MemoryCacheProvider.get
        (MemoryCacheProvider.set (emptyMem Int) 1000 "k" 7 (some (-1))) 2000 "k").1 =
        some 7) ∧
    ((MemoryCacheProvider.get
        (MemoryCacheProvider.set (emptyMem Int) 1000 "k" 7 (some (-1))) 2000 "k").2 "k" =
        some ⟨7, some 0⟩) ∧
    ((2000:Int) > 0) :=
  ⟨by decide, by decide, by decide, by decide⟩

/-- C4 amended: the in-memory get implements lazy expiry for nonzero
stored expiry timestamps: an absent key gives absent; an entry with a
nonzero expiry that has passed is deleted and absent is returned; an entry
whose expiry is zero (treated as no expiry by the JS guard), not yet
passed, or absent yields the stored value; and after a set with a one
second ttl at a nonnegative clock, an immediate get returns the value
while a get more than one second later returns absent. -/
theorem memory_get_lazy_expiry {α : Type} (c : MemCache α) (now : Int) (key : String) :
    (c key = none → MemoryCacheProvider.get c now key = (none, c)) ∧
    (∀ (v : α) (e : Int), c key = some ⟨v, some e⟩ → e ≠ 0 → now > e →
      MemoryCacheProvider.get c now key = (none, MemoryCacheProvider.delete c key)) ∧
    (∀ (v : α) (e : Int), c key = some ⟨v, some e⟩ → e = 0 ∨ now ≤ e →
      MemoryCacheProvider.get c now key = (some v, c)) ∧
    (∀ v : α, c key = some ⟨v, none⟩ → MemoryCacheProvider.get c now key = (some v, c)) ∧
    (∀ (v : α) (t : Int), 0 ≤ t →
      (MemoryCacheProvider.get (MemoryCacheProvider.set c t key v (some 1)) t key).1 =
        some v ∧
      ∀ t2 : Int, t2 > t + 1000 →
        (MemoryCacheProvider.get (MemoryCacheProvider.set c t key v (some 1)) t2 key).1 =
          none) := by
  refine ⟨?_, ?_, ?_, ?_, ?_⟩
  · intro h
    unfold MemoryCacheProvider.get
    rw [h]
  · intro v e h he hnow
    rw [get_of_entry c now key v (some e) h,
      if_pos ((jsExpiryCheck_true_iff e now).mpr ⟨he, hnow⟩)]
  · intro v e h hor
    have hf := (jsExpiryCheck_false_iff e now).mpr hor
    rw [get_of_entry c now key v (some e) h, if_neg (by simp [hf])]
  · intro v h
    rw [get_of_entry c now key v none h]
    simp [jsExpiryCheck]
  · intro v t ht
    have hset : (MemoryCacheProvider.set c t key v (some 1)) key =
        some ⟨v, some (t + 1000)⟩ := by
      simp [MemoryCacheProvider.set, setExpiresAt]
    constructor
    · have hf : jsExpiryCheck (some (t + 1000)) t = false :=
        (jsExpiryCheck_false_iff _ _).mpr (Or.inr (by omega))
      rw [get_of_entry _ t key v (some (t + 1000)) hset]
      simp [hf]
    · intro t2 ht2
      have htr : jsExpiryCheck (some (t + 1000)) t2 = true :=
        (jsExpiryCheck_true_iff _ _).mpr ⟨by omega, by omega⟩
      rw [get_of_entry _ t2 key v (some (t + 1000)) hset]
      simp [htr]

/-- Witness for C4: an entry set at time 1000 with a one second ttl is
deleted and reported absent by a get at time 3000. -/
theorem memory_get_lazy_expiry_witness :
    MemoryCacheProvider.get
        (MemoryCacheProvider.set (emptyMem Int) 1000 "k" 5 (some 1)) 3000 "k" =
      (none,
        MemoryCacheProvider.delete
          (MemoryCacheProvider.set (emptyMem Int) 1000 "k" 5 (some 1)) "k") :=
  (memory_get_lazy_expiry
      (MemoryCacheProvider.set (emptyMem Int) 1000 "k" 5 (some 1)) 3000 "k").2.1
    5 2000 (by decide) (by decide) (by decide)

/-- C6 counterexample: after a set at time 1000 with an explicit ttl of 0
seconds, exists at time 5000 reports true (the falsy ttl stored no expiry,
so the entry lives forever), although the ttl of that prior set has long
passed per the spec reading of expiry. -/
theorem exists_zero_ttl_cex :
    ((MemoryCacheProvider.existsKey
        (runOps (emptyMem Int) [CacheOp.set 1000 "k" 1 (some 0)]) 5000 "k").1 = true) ∧
    (specLive [CacheOp.set 1000 "k" (1:Int) (some 0)] "k" 5000 = false) :=
  ⟨by decide, by decide⟩

/-- C6 amended: over every trace of set, delete and flush calls whose sets
carry nonnegative clock readings and positive ttls when one is given,
exists(k) returns true exactly when the last operation writing k is a set
whose ttl has not expired (or carries no ttl), that is, a prior set
occurred, has not expired, and was not deleted or flushed since. -/
theorem exists_iff_set_live {α : Type} (ops : List (CacheOp α)) (key : String) (now : Int)
    (hwf : wfOps ops = true) :
    (MemoryCacheProvider.existsKey (runOps (emptyMem α) ops) now key).1 =
      specLive ops key now := by
  have h := runOps_apply ops (emptyMem α) key
  cases hw : lastWrite ops key with
  | none =>
    rw [hw] at h
    have h2 : runOps (emptyMem α) ops key = none := h
    unfold MemoryCacheProvider.existsKey
    rw [h2]
    simp [specLive, hw]
  | some w =>
    rw [hw] at h
    cases w with
    | delete k =>
      have h2 : runOps (emptyMem α) ops key = none := h
      unfold MemoryCacheProvider.existsKey
      rw [h2]
      simp [specLive, hw]
    | flush =>
      have h2 : runOps (emptyMem α) ops key = none := h
      unfold MemoryCacheProvider.existsKey
      rw [h2]
      simp [specLive, hw]
    | set t k v ttl =>
      cases ttl with
      | none =>
        have h2 : runOps (emptyMem α) ops key = some ⟨v, none⟩ := h
        unfold MemoryCacheProvider.existsKey
        rw [h2]
        simp [specLive, hw, jsExpiryCheck]
      | some s =>
        have hop : wfOp (CacheOp.set t k v (some s)) = true :=
          (List.all_eq_true.mp hwf) _ (lastWrite_mem ops key _ hw)
        simp only [wfOp, Bool.and_eq_true, decide_eq_true_eq] at hop
        obtain ⟨ht, hs⟩ := hop
        have hs0 : s ≠ 0 := by omega
        have h2 : runOps (emptyMem α) ops key = some ⟨v, some (t + s * 1000)⟩ := by
          rw [h]
          simp [setExpiresAt, hs0]
        unfold MemoryCacheProvider.existsKey
        rw [h2]
        by_cases hlt : now > t + s * 1000
        · have hx : jsExpiryCheck (some (t + s * 1000)) now = true :=
            (jsExpiryCheck_true_iff _ _).mpr ⟨by omega, hlt⟩
          have hspec : specLive ops key now = false := by
            simp [specLive, hw]
            omega
          rw [hspec]
          simp [hx]
        · have hx : jsExpiryCheck (some (t + s * 1000)) now = false :=
            (jsExpiryCheck_false_iff _ _).mpr (Or.inr (by omega))
          have hspec : specLive ops key now = true := by
            simp [specLive, hw]
            omega
          rw [hspec]
          simp [hx]

/-- Witness for C6 on a concrete well-formed trace: the key was last set
at time 2000 with a one second ttl, so at time 5000 exists agrees with the
spec liveness (both false). -/
theorem exists_iff_set_live_witness :
    wfOps [CacheOp.set 0 "a" (1:Int) none, CacheOp.set 1000 "b" 2 (some 60),
        CacheOp.delete "a", CacheOp.set 2000 "a" 3 (some 1)] = true ∧
    (MemoryCacheProvider.existsKey
        (runOps (emptyMem Int)
          [CacheOp.set 0 "a" 1 none, CacheOp.set 1000 "b" 2 (some 60),
           CacheOp.delete "a", CacheOp.set 2000 "a" 3 (some 1)]) 5000 "a").1 =
      specLive
        [CacheOp.set 0 "a" (1:Int) none, CacheOp.set 1000 "b" 2 (some 60),
         CacheOp.delete "a", CacheOp.set 2000 "a" 3 (some 1)] "a" 5000 :=
  ⟨by decide,
    exists_iff_set_live
      [CacheOp.set 0 "a" 1 none, CacheOp.set 1000 "b" 2 (some 60),
       CacheOp.delete "a", CacheOp.set 2000 "a" 3 (some 1)] "a" 5000 (by decide)⟩

/-- C9 counterexample: on the remote provider a ttl argument of 0 with a
configured default of 300 issues a plain SET, not SETEX with the default
(the nullish coalescing keeps the explicit 0); and on the memory provider
a negative ttl whose computed expiry lands exactly on the falsy timestamp
0 (set at time 5000 with ttl -5) is not expired on the next access. -/
theorem upstash_zero_ttl_cex :
    (UpstashCacheProvider.setCommand ⟨"u", "tok", some 300⟩ "k" (5:Int) (some 0) =
        RedisWriteCmd.set "k" 5) ∧
    (UpstashCacheProvider.setCommand ⟨"u", "tok", some 300⟩ "k" (5:Int) (some 0) ≠
        RedisWriteCmd.setex "k" 300 5) ∧
    ((MemoryCacheProvider.get
        (MemoryCacheProvider.set (emptyMem Int) 5000 "x" 9 (some (-5))) 6000 "x").1 =
        some 9) :=
  ⟨by decide, by decide, by decide⟩

/-- C9 amended: a ttl of 0 stores a never-expiring entry on the memory
provider and issues a plain SET on the remote provider (it does not fall
back to the configured default); a negative ttl t on the memory provider
stores an expiry in the past, so any later access finds the entry expired
provided the stored timestamp is not the falsy 0, while the remote
provider issues SETEX with the negative ttl itself. -/
theorem zero_vs_negative_ttl {α : Type} (c : MemCache α) (now t m : Int) (key : String)
    (v : α) (p : UpstashCacheProvider) :
    ((MemoryCacheProvider.set c now key v (some 0)) key = some ⟨v, none⟩) ∧
    ((MemoryCacheProvider.get (MemoryCacheProvider.set c now key v (some 0)) m key).1 =
        some v) ∧
    (UpstashCacheProvider.setCommand p key v (some 0) = RedisWriteCmd.set key v) ∧
    (t < 0 → now + t * 1000 ≠ 0 → now ≤ m →
      (MemoryCacheProvider.get (MemoryCacheProvider.set c now key v (some t)) m key).1 =
        none) ∧
    (t < 0 → UpstashCacheProvider.setCommand p key v (some t) = RedisWriteCmd.setex key t v) := by
  have hset0 : (MemoryCacheProvider.set c now key v (some 0)) key = some ⟨v, none⟩ := by
    simp [MemoryCacheProvider.set, setExpiresAt]
  refine ⟨hset0, ?_, ?_, ?_, ?_⟩
  · rw [get_of_entry _ m key v none hset0]
    simp [jsExpiryCheck]
  · rfl
  · intro htn h0 hm
    have ht0 : t ≠ 0 := by omega
    have hsett : (MemoryCacheProvider.set c now key v (some t)) key =
        some ⟨v, some (now + t * 1000)⟩ := by
      simp [MemoryCacheProvider.set, setExpiresAt, ht0]
    have hx : jsExpiryCheck (some (now + t * 1000)) m = true :=
      (jsExpiryCheck_true_iff _ _).mpr ⟨h0, by nlinarith⟩
    rw [get_of_entry _ m key v (some (now + t * 1000)) hsett]
    simp [hx]
  · intro htn
    have ht0 : t ≠ 0 := by omega
    simp [UpstashCacheProvider.setCommand, ht0]

/-- Witness for C9 with a concrete negative ttl at a realistic clock. -/
theorem zero_vs_negative_ttl_witness :
    (MemoryCacheProvider.get
        (MemoryCacheProvider.set (emptyMem Int) 10000 "k" (1:Int) (some (-5))) 10000 "k").1 =
      none :=
  (zero_vs_negative_ttl (emptyMem Int) 10000 (-5) 10000 "k" 1 ⟨"u", "t", none⟩).2.2.2.1
    (by decide) (by decide) (by decide)
